import Mathlib

/-!
# Verification of the weekly war-poll scheduling subsystem

Shallow embedding of the scheduling/idempotency core of the Discord
community bot (`bot.py`, `database.py`, `cogs/war.py`,
`utils/war_helpers.py`).  SQL tables are embedded as Lean lists of row
structures, SQL statements as list operations, and the scheduler tick
bodies as pure state-transition functions.  Machine integers are `Nat`
or `Int` (Python integers are unbounded).  Timestamps are `Nat`
(`CURRENT_TIMESTAMP` values compare like the stored strings).
-/

namespace Bot

/-! ## Event ledger (`sent_events` table, `database.py`)

Schema (`create_tables_with_cursor`, src/database.py:259-269):
`sent_events(id, guild_id, event_type, event_week, event_day, sent_at)`
with `UNIQUE(guild_id, event_type, event_week, event_day)`.
`event_day` is nullable, embedded as `Option String`.
-/

structure SentEvent where
  guild : Nat
  etype : String
  week : String
  day : Option String
  sentAt : Nat
  deriving DecidableEq, Repr

/-- Row predicate of `Database.was_event_sent` (src/database.py:788-809):
with an `event_day` argument the SQL filters on all four key columns,
without it only on the first three. -/
def sentEventMatches (g : Nat) (t w : String) (day : Option String) (r : SentEvent) : Bool :=
  match day with
  | some d => r.guild == g && r.etype == t && r.week == w && r.day == some d
  | none => r.guild == g && r.etype == t && r.week == w

/-- Embeds `Database.was_event_sent` (src/database.py:788-809):
`SELECT COUNT(*) ... > 0` over the matching rows. -/
def was_event_sent (ledger : List SentEvent) (g : Nat) (t w : String)
    (day : Option String := none) : Bool :=
  ledger.any (sentEventMatches g t w day)

/-- Embeds `Database.mark_event_sent` (src/database.py:811-827):
`INSERT INTO sent_events ... ON CONFLICT(guild_id, event_type, event_week,
event_day) DO UPDATE SET sent_at = CURRENT_TIMESTAMP`.
Both SQLite and PostgreSQL treat NULL values in a UNIQUE index as
distinct from every value including other NULLs, so a row whose
`event_day` is NULL never conflicts with anything: with `day = none`
the insert always appends a fresh row and the `DO UPDATE` arm is dead.
With `day = some d` the insert conflicts exactly when a row with the
same four key fields is present, in which case only `sent_at` is
updated. -/
def mark_event_sent (ledger : List SentEvent) (g : Nat) (t w : String)
    (day : Option String) (now : Nat) : List SentEvent :=
  match day with
  | none => ledger ++ [⟨g, t, w, none, now⟩]
  | some d =>
      if ledger.any fun r =>
          r.guild == g && r.etype == t && r.week == w && r.day == some d then
        ledger.map fun r =>
          if r.guild == g && r.etype == t && r.week == w && r.day == some d then
            { r with sentAt := now }
          else r
      else ledger ++ [⟨g, t, w, some d, now⟩]

/-- Embeds `Database.clear_old_events` (src/database.py:829-841):
`DELETE FROM sent_events WHERE guild_id = ? AND sent_at < ?`. -/
def clear_old_events (ledger : List SentEvent) (g : Nat) (cutoff : Nat) :
    List SentEvent :=
  ledger.filter fun r => !(r.guild == g && decide (r.sentAt < cutoff))

/-- Embeds the body of the daily `cleanup_old_data` task
(src/bot.py:2454-2461).  The body executes
`db.clear_old_events(older_than_weeks=4)`, but `Database.clear_old_events`
has signature `(self, guild_id: int, older_than_date: datetime)`
(src/database.py:829): the call raises `TypeError` (missing positional
argument `guild_id`, unexpected keyword argument `older_than_weeks`)
before any SQL runs, and the surrounding `except` catches and logs it.
The ledger is therefore returned unchanged; the `Bool` records that the
error branch was taken. -/
def cleanup_old_data (ledger : List SentEvent) : List SentEvent × Bool :=
  (ledger, true)

/-! ## Participation store (`war_participants` table, `database.py`)

Schema (src/database.py:228-238): `war_participants(id, user_id, guild_id,
poll_week, participation_type, created_at)` with
`UNIQUE(user_id, guild_id, poll_week)`.
-/

structure WarRow where
  user : Nat
  guild : Nat
  week : String
  ptype : String
  deriving DecidableEq, Repr

/-- Embeds `Database.set_war_participation` (src/database.py:559-580):
`DELETE FROM war_participants WHERE user_id = ? AND guild_id = ? AND
poll_week = ?` followed by an `INSERT` of the new row. -/
def set_war_participation (tbl : List WarRow) (u g : Nat) (wk pt : String) :
    List WarRow :=
  (tbl.filter fun r => !(r.user == u && r.guild == g && r.week == wk)) ++
    [⟨u, g, wk, pt⟩]

/-- Embeds `Database.get_war_participants` with a `participation_type`
filter (src/database.py:582-604): `SELECT user_id FROM war_participants
WHERE guild_id = ? AND poll_week = ? AND participation_type = ?`. -/
def get_war_participants (tbl : List WarRow) (g : Nat) (wk pt : String) :
    List Nat :=
  (tbl.filter fun r => r.guild == g && r.week == wk && r.ptype == pt).map
    (·.user)

/-- The Saturday mention set built by `check_war_reminders`
(src/bot.py:2364-2366): `participants["saturday_players"] |
participants["both_days_players"]`, where the two Python sets come from
`get_war_participants` (src/bot.py:305-314) querying the participation
types `"saturday"` and `"both"`.  List concatenation embeds set union
(the claims are about membership). -/
def saturday_player_ids (tbl : List WarRow) (g : Nat) (wk : String) : List Nat :=
  get_war_participants tbl g wk "saturday" ++ get_war_participants tbl g wk "both"

/-- The Sunday mention set of `check_war_reminders` (src/bot.py:2416-2417):
`participants["sunday_players"] | participants["both_days_players"]`. -/
def sunday_player_ids (tbl : List WarRow) (g : Nat) (wk : String) : List Nat :=
  get_war_participants tbl g wk "sunday" ++ get_war_participants tbl g wk "both"

/-- Embeds `Database.clear_war_participants` (src/database.py:634-645):
`DELETE FROM war_participants WHERE guild_id = ? AND poll_week = ?`. -/
def clear_war_participants (tbl : List WarRow) (g : Nat) (wk : String) :
    List WarRow :=
  tbl.filter fun r => !(r.guild == g && r.week == wk)

end Bot

namespace Bot

/-! ## Database-layer theorems (C4, C5, C6, C8 support) -/

/-- C4 failing-input evaluation: marking the poll event (whose
`event_day` is NULL) twice leaves TWO ledger rows, not one, while a
day-keyed reminder event really is idempotent. -/
theorem mark_event_sent_duplicates_null_day :
    (mark_event_sent (mark_event_sent [] 1 "war_poll" "2024-W01" none 10)
        1 "war_poll" "2024-W01" none 20).length = 2 ∧
    (mark_event_sent [] 1 "war_poll" "2024-W01" none 10).length = 1 ∧
    (mark_event_sent
        (mark_event_sent [] 1 "saturday_reminder" "2024-W01" (some "Saturday") 10)
        1 "saturday_reminder" "2024-W01" (some "Saturday") 20).length = 1 := by
  decide

/-- C5: a user is mentioned by the Saturday reminder iff the store holds
a row for them in this guild and week whose choice is `"saturday"` or
`"both"`, and by the Sunday reminder iff their stored choice is
`"sunday"` or `"both"`. -/
theorem reminder_mention_sets_correct (tbl : List WarRow) (g u : Nat) (wk : String) :
    (u ∈ saturday_player_ids tbl g wk ↔
      ∃ r ∈ tbl, r.user = u ∧ r.guild = g ∧ r.week = wk ∧
        (r.ptype = "saturday" ∨ r.ptype = "both")) ∧
    (u ∈ sunday_player_ids tbl g wk ↔
      ∃ r ∈ tbl, r.user = u ∧ r.guild = g ∧ r.week = wk ∧
        (r.ptype = "sunday" ∨ r.ptype = "both")) := by
  have key : ∀ pt, u ∈ get_war_participants tbl g wk pt ↔
      ∃ r ∈ tbl, r.user = u ∧ r.guild = g ∧ r.week = wk ∧ r.ptype = pt := by
    intro pt
    simp only [get_war_participants, List.mem_map, List.mem_filter,
      Bool.and_eq_true, beq_iff_eq]
    aesop
  constructor <;>
    · simp only [saturday_player_ids, sunday_player_ids, List.mem_append, key]
      aesop

/-- C6: `set_war_participation` is last-write-wins: after the call the
table holds exactly one row for the key `(user, guild, poll_week)` —
the new choice — and every row for a different key is untouched. -/
theorem set_war_participation_last_write_wins
    (tbl : List WarRow) (u g : Nat) (wk pt : String) :
    ((set_war_participation tbl u g wk pt).filter
        (fun r => r.user == u && r.guild == g && r.week == wk)
      = [⟨u, g, wk, pt⟩]) ∧
    ((set_war_participation tbl u g wk pt).filter
        (fun r => !(r.user == u && r.guild == g && r.week == wk))
      = tbl.filter (fun r => !(r.user == u && r.guild == g && r.week == wk))) := by
  unfold set_war_participation
  constructor
  · rw [List.filter_append]
    have h1 : (tbl.filter fun r => !(r.user == u && r.guild == g && r.week == wk)).filter
        (fun r => r.user == u && r.guild == g && r.week == wk) = [] := by
      rw [List.filter_filter]
      apply List.filter_eq_nil_iff.mpr
      intro r _
      cases h : (r.user == u && r.guild == g && r.week == wk) <;> simp [h]
    rw [h1]
    simp
  · rw [List.filter_append]
    have h2 : (List.filter (fun r => !(r.user == u && r.guild == g && r.week == wk))
        [(⟨u, g, wk, pt⟩ : WarRow)]) = [] := by simp
    rw [h2, List.filter_filter]
    simp

end Bot

namespace Bot

/-- C8: the daily cleanup sweep never deletes anything.  The claim says
`cleanup_old_data` (via `clear_old_events` with a 4-week retention)
deletes exactly the ledger rows older than the cutoff; in the code the
call `db.clear_old_events(older_than_weeks=4)` raises `TypeError`
(wrong signature) which the task's `except` swallows, so even a row
from year 2020 survives the sweep.  The last conjunct records what the
callee `clear_old_events` would do if it were called correctly: it
deletes exactly the rows of the guild older than the cutoff. -/
theorem cleanup_old_data_deletes_nothing :
    (cleanup_old_data [⟨1, "war_poll", "2020-W01", none, 0⟩]
      = ([⟨1, "war_poll", "2020-W01", none, 0⟩], true)) ∧
    (∀ ledger : List SentEvent, (cleanup_old_data ledger).1 = ledger) ∧
    (∀ (r : SentEvent) (ledger : List SentEvent) (g cutoff : Nat),
      r ∈ clear_old_events ledger g cutoff ↔
        r ∈ ledger ∧ ¬(r.guild = g ∧ r.sentAt < cutoff)) := by
  refine ⟨rfl, fun _ => rfl, fun r ledger g cutoff => ?_⟩
  simp only [clear_old_events, List.mem_filter, Bool.not_eq_eq_eq_not,
    Bool.not_true, Bool.and_eq_false_imp]
  constructor
  · rintro ⟨hr, h⟩
    refine ⟨hr, ?_⟩
    rintro ⟨hg, hlt⟩
    have := h (by simp [hg])
    simp [hlt] at this
  · rintro ⟨hr, h⟩
    refine ⟨hr, ?_⟩
    intro hg
    simp only [beq_iff_eq] at hg
    simp only [decide_eq_false_iff_not]
    exact fun hlt => h ⟨hg, hlt⟩

/-! ## Clock/Calendar (`get_current_poll_week`)

`get_current_poll_week` (src/utils/war_helpers.py:9-11 and
src/bot.py:301-303) is `datetime.now().strftime("%Y-W%U")`: it uses the
server's local time (no timezone argument) and the `%U` week number —
the week of the year with SUNDAY as first day, where all days before
the first Sunday of the year are week 00.

The embedding represents the server-local date as
`(year, jan1, yday)` where `jan1` is the weekday of January 1st of that
year (Sunday = 0, as in `%w`) and `yday` is the 0-based day of the
year; `strftime` computes `%U = (yday + 7 - wday) / 7` where
`wday = (jan1 + yday) % 7`.
-/

/-- Weekday (Sunday = 0) of the day `yday` (0-based) in a year whose
January 1st falls on weekday `jan1`. -/
def wday0Sun (jan1 yday : Nat) : Nat := (jan1 + yday) % 7

/-- `strftime("%U")`: Sunday-first week number, week 00 before the
first Sunday of the year. -/
def weekU (jan1 yday : Nat) : Nat := (yday + 7 - wday0Sun jan1 yday) / 7

/-- Zero-padding of `%U` to two digits. -/
def pad2 (n : Nat) : String := if n < 10 then "0" ++ toString n else toString n

/-- Embeds `get_current_poll_week` (src/utils/war_helpers.py:9-11,
src/bot.py:301-303): `datetime.now().strftime("%Y-W%U")` evaluated on
the server-local date `(year, jan1, yday)`. -/
def get_current_poll_week (year jan1 yday : Nat) : String :=
  toString year ++ "-W" ++ pad2 (weekU jan1 yday)

/-- C3 counterexample: Sunday 2024-01-07 (`yday = 6`) and Monday
2024-01-08 (`yday = 7`) straddle Monday 00:00 local time, yet both map
to the token `"2024-W01"` — `%U` weeks begin on Sunday, not Monday, so
the claimed ISO-week behaviour (and hence the claimed Monday-boundary
token change) fails.  (January 1st 2024 was a Monday: `jan1 = 1`.) -/
theorem poll_week_same_across_monday :
    get_current_poll_week 2024 1 6 = get_current_poll_week 2024 1 7 ∧
    wday0Sun 1 6 = 0 ∧ wday0Sun 1 7 = 1 ∧
    get_current_poll_week 2024 1 6 = "2024-W01" := by
  decide

/-- C3 amended: the token is computed from the server-local date (not
the guild's timezone) with `%U` week numbering: stepping one day ahead
leaves the `%U` week number unchanged unless the new day is a Sunday,
in which case it increments; consequently any two instants of the same
year whose dates are separated by no Sunday boundary carry the same
token, and crossing Sunday 00:00 changes the week number. -/
theorem poll_week_token_stability (year jan1 d : Nat) (h7 : jan1 < 7) :
    (weekU jan1 (d + 1)
      = weekU jan1 d + (if wday0Sun jan1 (d + 1) = 0 then 1 else 0)) ∧
    (∀ d2, d ≤ d2 → (∀ e, d < e → e ≤ d2 → wday0Sun jan1 e ≠ 0) →
      get_current_poll_week year jan1 d = get_current_poll_week year jan1 d2) := by
  have weekU_eq : ∀ e, weekU jan1 e = (jan1 + e) / 7 + (7 - jan1) / 7 := by
    intro e
    unfold weekU wday0Sun
    have h1 : e + 7 - (jan1 + e) % 7 = 7 * ((jan1 + e) / 7) + (7 - jan1) := by
      omega
    rw [h1, Nat.mul_add_div (by norm_num)]
  have step : ∀ e, weekU jan1 (e + 1)
      = weekU jan1 e + (if wday0Sun jan1 (e + 1) = 0 then 1 else 0) := by
    intro e
    rw [weekU_eq, weekU_eq]
    unfold wday0Sun
    by_cases h : (jan1 + (e + 1)) % 7 = 0 <;> simp only [h, if_true, if_false] <;>
      omega
  refine ⟨step d, fun d2 hle hnosun => ?_⟩
  have key : ∀ k, (∀ e, d < e → e ≤ d + k → wday0Sun jan1 e ≠ 0) →
      weekU jan1 (d + k) = weekU jan1 d := by
    intro k
    induction k with
    | zero => intro _; rfl
    | succ n ih =>
        intro h
        have hn : ∀ e, d < e → e ≤ d + n → wday0Sun jan1 e ≠ 0 :=
          fun e h1 h2 => h e h1 (by omega)
        have hs := step (d + n)
        have hz : wday0Sun jan1 (d + n + 1) ≠ 0 := h (d + n + 1) (by omega) (by omega)
        rw [if_neg hz] at hs
        have heq : d + (n + 1) = d + n + 1 := by omega
        rw [heq, hs, ih hn]
        omega
  obtain ⟨k, hk⟩ : ∃ k, d2 = d + k := ⟨d2 - d, by omega⟩
  subst hk
  have := key k (fun e h1 h2 => hnosun e h1 h2)
  unfold get_current_poll_week
  rw [this]

/-- Witness for `poll_week_token_stability`: concrete instantiation at
2024 with `d = 1` (Tuesday Jan 2) and `d2 = 2` (Wednesday Jan 3). -/
theorem poll_week_token_stability_witness :
    get_current_poll_week 2024 1 1 = get_current_poll_week 2024 1 2 :=
  (poll_week_token_stability 2024 1 1 (by decide)).2 2 (by decide)
    (fun e h1 h2 => by
      have : e = 2 := by omega
      subst this
      decide)

end Bot

namespace Bot

/-! ## Scheduler loop (`check_war_poll_schedule`, `check_war_reminders`)

Both tasks (src/bot.py:2191-2323 and 2326-2451) run every 5 minutes,
loop over all guilds, and for each guild read its configuration
(`get_war_config`, src/utils/war_helpers.py / src/bot.py:324) and the
current guild-local time, then decide whether to post the weekly poll
or a war reminder.  The per-guild bodies are embedded as pure state
transitions on the two database tables plus an append-only log of the
messages actually sent (`channel.send` calls).
-/

/-- The dict returned by `get_war_config` (src/bot.py:324-340):
schedule settings of one guild.  Hours/minutes are the stored values
(`Nat`; the admin commands validate them into range, claim C9). -/
structure WarConfig where
  pollDay : String
  pollHour : Nat
  pollMinute : Nat
  satHour : Nat
  satMinute : Nat
  sunHour : Nat
  sunMinute : Nat
  reminderHours : Nat
  warChannelId : Option Nat
  deriving DecidableEq, Repr

/-- The mutable state the scheduler bodies touch: the `sent_events`
ledger, the `war_participants` table, and the log of guilds a message
was dispatched to (one entry per `channel.send`). -/
structure BotState where
  ledger : List SentEvent
  parts : List WarRow
  dispatched : List Nat
  deriving DecidableEq, Repr

/-- Python truthiness of `config.get("war_channel_id")`
(`if channel_id:`): `None` and `0` are falsy. -/
def truthyChannel : Option Nat → Bool
  | none => false
  | some cid => cid != 0

/-- `now.strftime("%A")` for a weekday index with SUNDAY = 0 (the
simulated poll week runs Sunday..Saturday so that the `%U` week token
is constant across it). -/
def dayNameSun : Nat → String
  | 0 => "Sunday"
  | 1 => "Monday"
  | 2 => "Tuesday"
  | 3 => "Wednesday"
  | 4 => "Thursday"
  | 5 => "Friday"
  | 6 => "Saturday"
  | _ => ""

/-- Embeds the per-guild body of `check_war_poll_schedule`
(src/bot.py:2195-2317).  `dayStr`, `hour`, `minute` are the guild-local
`now`; `wk` is `get_current_poll_week()`; `chanExists cid` embeds
`guild.get_channel(cid)` being non-`None`; `now` is the timestamp for
`sent_at`.  Order of effects follows the source: participant clear,
then `channel.send`, then `mark_event_sent`. -/
def pollTickGuild (cfg : WarConfig) (chanExists : Nat → Bool) (g : Nat)
    (wk : String) (dayStr : String) (hour minute : Nat) (now : Nat)
    (st : BotState) : BotState :=
  if cfg.pollDay == dayStr then
    if ((cfg.pollHour * 60 + cfg.pollMinute : Int)
        - (hour * 60 + minute : Int)).natAbs < 5 then
      if !was_event_sent st.ledger g "war_poll" wk none then
        if truthyChannel cfg.warChannelId then
          match cfg.warChannelId with
          | none => st
          | some cid =>
            if chanExists cid then
              { ledger := mark_event_sent st.ledger g "war_poll" wk none now
                parts := clear_war_participants st.parts g wk
                dispatched := st.dispatched ++ [g] }
            else st
        else st
      else st
    else st
  else st

/-- Embeds the per-guild body of `check_war_reminders`
(src/bot.py:2331-2445).  `wd` is `now.weekday()` (Monday = 0, so
Saturday = 5, Sunday = 6).

IMPORTANT FIDELITY NOTE: in the source the statement
`if not db.was_event_sent(...)` (src/bot.py:2356 and 2407) guards ONLY
the `logger.info("Sending ... reminder")` call — the block computing
the channel, participants and the actual `channel.send` +
`mark_event_sent` sits at the enclosing indentation level (the `else:`
that logs "already sent" is even attached to `if channel_id:`).  The
dispatch is therefore NOT conditioned on the ledger, and this
embedding reproduces that: the ledger test has no effect on the state
transition. -/
def reminderTickGuild (cfg : WarConfig) (chanExists : Nat → Bool) (g : Nat)
    (wk : String) (wd hour minute : Nat) (now : Nat) (st : BotState) : BotState :=
  if wd == 5 then
    if ((hour * 60 + minute : Int)
        - ((cfg.satHour * 60 + cfg.satMinute : Int)
            - (cfg.reminderHours : Int) * 60)).natAbs < 5 then
      if truthyChannel cfg.warChannelId then
        match cfg.warChannelId with
        | none => st
        | some cid =>
          if chanExists cid then
            if (saturday_player_ids st.parts g wk).isEmpty then st
            else
              { st with
                ledger := mark_event_sent st.ledger g "saturday_reminder" wk
                  (some "Saturday") now
                dispatched := st.dispatched ++ [g] }
          else st
      else st
    else st
  else if wd == 6 then
    if ((hour * 60 + minute : Int)
        - ((cfg.sunHour * 60 + cfg.sunMinute : Int)
            - (cfg.reminderHours : Int) * 60)).natAbs < 5 then
      if truthyChannel cfg.warChannelId then
        match cfg.warChannelId with
        | none => st
        | some cid =>
          if chanExists cid then
            if (sunday_player_ids st.parts g wk).isEmpty then st
            else
              { st with
                ledger := mark_event_sent st.ledger g "sunday_reminder" wk
                  (some "Sunday") now
                dispatched := st.dispatched ++ [g] }
          else st
      else st
    else st
  else st

end Bot

namespace Bot

/-- Concrete configuration used for the reminder evaluation: the schema
defaults (poll Friday 15:00, wars Saturday/Sunday 22:30, reminder lead
2 h) with the war channel set to channel 10. -/
def defaultCfg : WarConfig :=
  { pollDay := "Friday", pollHour := 15, pollMinute := 0,
    satHour := 22, satMinute := 30, sunHour := 22, sunMinute := 30,
    reminderHours := 2, warChannelId := some 10 }

/-- C1 failing-input evaluation: the Saturday reminder ledger key for
week `2024-W01` is already marked (a previous tick at 20:28 sent the
reminder), yet the tick at Saturday 20:33 — still inside the ±5-minute
window around 20:30 — dispatches the reminder again and appends a
second send, because the `was_event_sent` test in the source guards
only a log line.  The claim that dispatch happens only when the key is
unmarked is falsified by the code. -/
theorem saturday_reminder_resent_despite_mark :
    was_event_sent
      [⟨1, "saturday_reminder", "2024-W01", some "Saturday", 100⟩]
      1 "saturday_reminder" "2024-W01" (some "Saturday") = true ∧
    (reminderTickGuild defaultCfg (fun _ => true) 1 "2024-W01" 5 20 33 1233
      ⟨[⟨1, "saturday_reminder", "2024-W01", some "Saturday", 100⟩],
       [⟨7, 1, "2024-W01", "saturday"⟩], [1]⟩).dispatched = [1, 1] := by
  constructor
  · rfl
  · rfl

/-! ### C2: exactly-once weekly poll dispatch

The simulated week runs from Sunday 00:00 to Saturday 23:59 in the
guild's local time (so the `%U`-based `get_current_poll_week` token is
constant across the whole simulation, cf. C3), with one scheduler tick
every 5 minutes as produced by `@tasks.loop(minutes=5)`:
tick `i` happens at minute `5 * i` of the week, `2016 = 7*24*12` ticks
in total.
-/

/-- The tick instants (minutes since Sunday 00:00) of one simulated
week of the 5-minute scheduler loop. -/
def weekTicks : List Nat := (List.range 2016).map (fun i => 5 * i)

/-- One `check_war_poll_schedule` tick of the simulated week for one
guild: decompose the minute-of-week `t` into guild-local weekday
(Sunday = 0), hour and minute and run the per-guild body. -/
def pollSimStep (cfg : WarConfig) (chanExists : Nat → Bool) (g : Nat)
    (wk : String) (st : BotState) (t : Nat) : BotState :=
  pollTickGuild cfg chanExists g wk (dayNameSun (t / 1440)) (t % 1440 / 60)
    (t % 60) t st

/-- Simulate one full week of 5-minute `check_war_poll_schedule` ticks
for guild `g`, starting from an empty ledger. -/
def simulate_poll_week (cfg : WarConfig) (chanExists : Nat → Bool) (g : Nat)
    (wk : String) : BotState :=
  weekTicks.foldl (pollSimStep cfg chanExists g wk) ⟨[], [], []⟩

/-- Does the tick at minute-of-week `t` fall on the configured poll day
inside the 5-minute tolerance window? (mirrors the two outer
conditions of `pollTickGuild`). -/
def pollFires (cfg : WarConfig) (t : Nat) : Bool :=
  cfg.pollDay == dayNameSun (t / 1440) &&
    decide (((cfg.pollHour * 60 + cfg.pollMinute : Int)
      - (((t % 1440 / 60 : Nat) : Int) * 60 + ((t % 60 : Nat) : Int))).natAbs < 5)

end Bot

namespace Bot

/-- A tick whose poll-ledger key is already marked changes nothing:
in the poll body the `was_event_sent` check really does guard the whole
dispatch block (src/bot.py:2221). -/
lemma pollTickGuild_noop_of_sent {cfg : WarConfig} {cE : Nat → Bool} {g : Nat}
    {wk ds : String} {h m now : Nat} {st : BotState}
    (hsent : was_event_sent st.ledger g "war_poll" wk none = true) :
    pollTickGuild cfg cE g wk ds h m now st = st := by
  unfold pollTickGuild
  rw [hsent]
  simp

/-- `pollFires` unpacked into its two conjuncts. -/
lemma pollFires_iff {cfg : WarConfig} {t : Nat} :
    pollFires cfg t = true ↔
      (cfg.pollDay == dayNameSun (t / 1440)) = true ∧
      ((cfg.pollHour * 60 + cfg.pollMinute : Int)
        - (((t % 1440 / 60 : Nat) : Int) * 60 + ((t % 60 : Nat) : Int))).natAbs < 5 := by
  unfold pollFires
  rw [Bool.and_eq_true, decide_eq_true_eq]

/-- Step characterization of a simulated poll tick when the guild has a
working notification channel. -/
lemma pollSimStep_eq {cfg : WarConfig} {cE : Nat → Bool} {g cid : Nat}
    {wk : String} (hcid : cfg.warChannelId = some cid) (h0 : cid ≠ 0)
    (hce : cE cid = true) (st : BotState) (t : Nat) :
    pollSimStep cfg cE g wk st t =
      if pollFires cfg t = true ∧
          was_event_sent st.ledger g "war_poll" wk none = false then
        ⟨mark_event_sent st.ledger g "war_poll" wk none t,
         clear_war_participants st.parts g wk,
         st.dispatched ++ [g]⟩
      else st := by
  unfold pollSimStep pollTickGuild
  rw [hcid]
  by_cases hA : (cfg.pollDay == dayNameSun (t / 1440)) = true
  · rw [if_pos hA]
    by_cases hB : ((cfg.pollHour * 60 + cfg.pollMinute : Int)
        - (((t % 1440 / 60 : Nat) : Int) * 60 + ((t % 60 : Nat) : Int))).natAbs < 5
    · rw [if_pos hB]
      by_cases hC : was_event_sent st.ledger g "war_poll" wk none = true
      · rw [hC]
        rw [if_neg (by simp)]
        rw [if_neg ?_]
        rintro ⟨_, hC'⟩
        exact absurd hC' (by simp)
      · have hC' : was_event_sent st.ledger g "war_poll" wk none = false :=
          Bool.eq_false_iff.mpr hC
        rw [hC']
        rw [if_pos (by simp)]
        rw [if_pos (show truthyChannel (some cid) = true by
          simp [truthyChannel, bne_iff_ne, h0])]
        dsimp only
        rw [if_pos hce]
        rw [if_pos ⟨pollFires_iff.mpr ⟨hA, hB⟩, rfl⟩]
    · rw [if_neg hB]
      rw [if_neg ?_]
      rintro ⟨hF, _⟩
      exact hB (pollFires_iff.mp hF).2
  · rw [if_neg hA]
    rw [if_neg ?_]
    rintro ⟨hF, _⟩
    exact hA (pollFires_iff.mp hF).1

/-- Once the week's poll key is marked, any further sequence of ticks is
a no-op. -/
lemma poll_foldl_noop_of_sent {cfg : WarConfig} {cE : Nat → Bool} {g : Nat}
    {wk : String} (ts : List Nat) (st : BotState)
    (hsent : was_event_sent st.ledger g "war_poll" wk none = true) :
    ts.foldl (pollSimStep cfg cE g wk) st = st := by
  induction ts with
  | nil => rfl
  | cons t ts ih =>
      rw [List.foldl_cons]
      rw [show pollSimStep cfg cE g wk st t = st from
        pollTickGuild_noop_of_sent hsent]
      exact ih

/-- The freshly marked poll row satisfies the `was_event_sent` filter. -/
lemma was_event_sent_after_mark (g : Nat) (wk : String) (t : Nat) :
    was_event_sent [(⟨g, "war_poll", wk, none, t⟩ : SentEvent)]
      g "war_poll" wk none = true := by
  simp [was_event_sent, sentEventMatches]

/-- Invariant fold: starting from an empty ledger, a sequence of ticks
dispatches the poll exactly once if any tick fires, and never
otherwise. -/
lemma poll_foldl_exactly_once {cfg : WarConfig} {cE : Nat → Bool} {g cid : Nat}
    {wk : String} (hcid : cfg.warChannelId = some cid) (h0 : cid ≠ 0)
    (hce : cE cid = true) :
    ∀ (ts : List Nat) (st : BotState), st.ledger = [] →
      (ts.any (pollFires cfg) = false →
        ts.foldl (pollSimStep cfg cE g wk) st = st) ∧
      (ts.any (pollFires cfg) = true →
        (ts.foldl (pollSimStep cfg cE g wk) st).dispatched.length
            = st.dispatched.length + 1 ∧
        ∃ t0, (ts.foldl (pollSimStep cfg cE g wk) st).ledger
          = [⟨g, "war_poll", wk, none, t0⟩]) := by
  intro ts
  induction ts with
  | nil =>
      intro st hst
      exact ⟨fun _ => rfl, fun h => by simp at h⟩
  | cons t ts ih =>
      intro st hst
      have hsent0 : was_event_sent st.ledger g "war_poll" wk none = false := by
        rw [hst]; rfl
      by_cases hf : pollFires cfg t
      · have hstep : pollSimStep cfg cE g wk st t =
            ⟨mark_event_sent st.ledger g "war_poll" wk none t,
             clear_war_participants st.parts g wk,
             st.dispatched ++ [g]⟩ := by
          rw [pollSimStep_eq hcid h0 hce]
          rw [if_pos ⟨hf, hsent0⟩]
        have hledger1 : mark_event_sent st.ledger g "war_poll" wk none t
            = [⟨g, "war_poll", wk, none, t⟩] := by
          rw [hst]; rfl
        have hsent1 : was_event_sent
            (mark_event_sent st.ledger g "war_poll" wk none t)
            g "war_poll" wk none = true := by
          rw [hledger1]; exact was_event_sent_after_mark g wk t
        constructor
        · intro hany
          rw [List.any_cons, hf] at hany
          simp at hany
        · intro _
          rw [List.foldl_cons, hstep,
            poll_foldl_noop_of_sent ts _ hsent1]
          constructor
          · simp
          · exact ⟨t, hledger1⟩
      · have hstep : pollSimStep cfg cE g wk st t = st := by
          rw [pollSimStep_eq hcid h0 hce]
          rw [if_neg]
          rintro ⟨hf1, _⟩
          exact hf hf1
        have hany : (t :: ts).any (pollFires cfg) = ts.any (pollFires cfg) := by
          rw [List.any_cons]
          simp only [Bool.not_eq_true] at hf
          rw [hf]
          simp
        rw [List.foldl_cons, hstep]
        obtain ⟨ih1, ih2⟩ := ih st hst
        exact ⟨fun h => ih1 (by rw [hany] at h; exact h),
               fun h => ih2 (by rw [hany] at h; exact h)⟩

/-- There is a firing tick: the 5-minute cadence always lands a tick
inside the `abs(...) < 5` tolerance window of the configured poll
minute on the configured poll day. -/
lemma exists_firing_tick {cfg : WarConfig} (d : Nat) (hd : d < 7)
    (hday : cfg.pollDay = dayNameSun d) (hH : cfg.pollHour < 24)
    (hM : cfg.pollMinute < 60) :
    weekTicks.any (pollFires cfg) = true := by
  set m := cfg.pollHour * 60 + cfg.pollMinute with hm
  have hm1440 : m < 1440 := by omega
  set k := 288 * d + m / 5 with hk
  have hk2016 : k < 2016 := by omega
  have hmem : (5 * k) ∈ weekTicks := by
    unfold weekTicks
    exact List.mem_map.mpr ⟨k, List.mem_range.mpr hk2016, rfl⟩
  have ht : 5 * k = 1440 * d + 5 * (m / 5) := by omega
  have hdiv : (5 * k) / 1440 = d := by omega
  have hmod : (5 * k) % 1440 = 5 * (m / 5) := by omega
  rw [List.any_eq_true]
  refine ⟨5 * k, hmem, ?_⟩
  unfold pollFires
  rw [hdiv, hmod]
  have h1 : (cfg.pollDay == dayNameSun d) = true := by
    rw [hday]
    exact beq_self_eq_true _
  rw [h1]
  simp only [Bool.true_and, decide_eq_true_eq]
  have h60 : (5 * (m / 5)) / 60 * 60 + (5 * k) % 60 = 5 * (m / 5) := by omega
  have hcast : (((5 * (m / 5)) / 60 * 60 : Nat) : Int) + (((5 * k) % 60 : Nat) : Int)
      = ((5 * (m / 5) : Nat) : Int) := by
    push_cast
    omega
  omega

/-- C2: with a configured poll day, a valid poll time and a working
notification channel, one simulated week of 5-minute
`check_war_poll_schedule` ticks dispatches the poll exactly once and
writes exactly one `sent_events` ledger row: each tick inside the
tolerance window first checks `was_event_sent` and only dispatches and
marks when it returns false. -/
theorem war_poll_dispatched_exactly_once (cfg : WarConfig)
    (chanExists : Nat → Bool) (g : Nat) (wk : String) (d cid : Nat)
    (hd : d < 7) (hday : cfg.pollDay = dayNameSun d)
    (hH : cfg.pollHour < 24) (hM : cfg.pollMinute < 60)
    (hcid : cfg.warChannelId = some cid) (h0 : cid ≠ 0)
    (hce : chanExists cid = true) :
    (simulate_poll_week cfg chanExists g wk).dispatched.length = 1 ∧
    ∃ t0, (simulate_poll_week cfg chanExists g wk).ledger
      = [⟨g, "war_poll", wk, none, t0⟩] := by
  have hfire := exists_firing_tick d hd hday hH hM
  have h := (@poll_foldl_exactly_once cfg chanExists g cid wk hcid h0 hce
    weekTicks ⟨[], [], []⟩ rfl).2 hfire
  exact ⟨h.1, h.2⟩

/-- Witness for `war_poll_dispatched_exactly_once`: the schema-default
guild (poll Friday 15:00, channel 10 present). -/
theorem war_poll_dispatched_exactly_once_witness :
    (simulate_poll_week defaultCfg (fun _ => true) 1 "2024-W02").dispatched.length = 1 ∧
    ∃ t0, (simulate_poll_week defaultCfg (fun _ => true) 1 "2024-W02").ledger
      = [⟨1, "war_poll", "2024-W02", none, t0⟩] :=
  war_poll_dispatched_exactly_once defaultCfg (fun _ => true) 1 "2024-W02" 5 10
    (by decide) rfl (by decide) (by decide) rfl (by decide) rfl

end Bot

namespace Bot

/-! ### C7: guild isolation of the scheduler ticks

Both loop bodies wrap each guild's evaluation in its own
`try: ... except Exception as e: logger.error(...)` (src/bot.py:2196,
2319-2320 and 2331, 2447-2448), so an exception raised while evaluating
one guild only skips that guild's iteration.  Configuration and storage
errors come from the environment; they are modelled by an oracle
`fails : Nat → Bool` saying whether the guild's body raises this tick.
A raising body performs no state change (the first thing the body does
is read configuration; any partial changes before the raise would only
concern that guild's own rows).
-/

/-- The `for guild in bot.guilds: try: body(guild) except: log` loop
shared by `check_war_poll_schedule` and `check_war_reminders`. -/
def runGuildsCaught (body : Nat → BotState → Except Unit BotState)
    (guilds : List Nat) (st : BotState) : BotState :=
  guilds.foldl
    (fun s g =>
      match body g s with
      | .ok s' => s'
      | .error _ => s)
    st

/-- Per-guild body of `check_war_poll_schedule` with a failure oracle:
either the evaluation raises (`fails g`) or it runs `pollTickGuild` on
that guild's configuration. -/
def pollBody (fails : Nat → Bool) (cfgOf : Nat → WarConfig)
    (chanExists : Nat → Bool) (wk dayStr : String) (hour minute now : Nat)
    (g : Nat) (st : BotState) : Except Unit BotState :=
  if fails g then .error ()
  else .ok (pollTickGuild (cfgOf g) chanExists g wk dayStr hour minute now st)

/-- Embeds one full tick of `check_war_poll_schedule`
(src/bot.py:2191-2323): the per-guild loop with per-guild exception
isolation. -/
def check_war_poll_schedule (guilds : List Nat) (fails : Nat → Bool)
    (cfgOf : Nat → WarConfig) (chanExists : Nat → Bool) (wk dayStr : String)
    (hour minute now : Nat) (st : BotState) : BotState :=
  runGuildsCaught (pollBody fails cfgOf chanExists wk dayStr hour minute now)
    guilds st

/-- Per-guild body of `check_war_reminders` with a failure oracle. -/
def reminderBody (fails : Nat → Bool) (cfgOf : Nat → WarConfig)
    (chanExists : Nat → Bool) (wk : String) (wd hour minute now : Nat)
    (g : Nat) (st : BotState) : Except Unit BotState :=
  if fails g then .error ()
  else .ok (reminderTickGuild (cfgOf g) chanExists g wk wd hour minute now st)

/-- Embeds one full tick of `check_war_reminders`
(src/bot.py:2326-2451). -/
def check_war_reminders (guilds : List Nat) (fails : Nat → Bool)
    (cfgOf : Nat → WarConfig) (chanExists : Nat → Bool) (wk : String)
    (wd hour minute now : Nat) (st : BotState) : BotState :=
  runGuildsCaught (reminderBody fails cfgOf chanExists wk wd hour minute now)
    guilds st

/-- A caught-and-logged failing body leaves the state unchanged and the
loop continues, so the whole tick behaves exactly as if the failing
guilds were not in the list at all. -/
lemma runGuildsCaught_filter (f : Nat → BotState → BotState)
    (fails : Nat → Bool) (guilds : List Nat) (st : BotState) :
    runGuildsCaught
        (fun g s => if fails g then .error () else .ok (f g s)) guilds st
      = runGuildsCaught (fun g s => .ok (f g s))
          (guilds.filter (fun g => !fails g)) st := by
  induction guilds generalizing st with
  | nil => rfl
  | cons g gs ih =>
      by_cases hg : fails g
      · unfold runGuildsCaught
        rw [List.foldl_cons, List.filter_cons]
        simp only [hg, Bool.not_true, if_pos, reduceIte]
        exact ih st
      · unfold runGuildsCaught
        rw [List.foldl_cons, List.filter_cons]
        simp only [hg, Bool.not_false, if_neg, reduceIte]
        rw [List.foldl_cons]
        exact ih (f g st)

/-- C7: guild isolation.  For any assignment of per-guild failures, a
tick of `check_war_poll_schedule` and a tick of `check_war_reminders`
produce exactly the state they would produce with the failing guilds
removed from the guild list and no failures at all: an exception in one
guild's evaluation is caught inside that guild's iteration and every
remaining guild is still evaluated and dispatched normally. -/
theorem scheduler_guild_isolation (guilds : List Nat) (fails : Nat → Bool)
    (cfgOf : Nat → WarConfig) (chanExists : Nat → Bool) (wk dayStr : String)
    (wd hour minute now : Nat) (st : BotState) :
    (check_war_poll_schedule guilds fails cfgOf chanExists wk dayStr
        hour minute now st
      = check_war_poll_schedule (guilds.filter (fun g => !fails g))
          (fun _ => false) cfgOf chanExists wk dayStr hour minute now st) ∧
    (check_war_reminders guilds fails cfgOf chanExists wk
        wd hour minute now st
      = check_war_reminders (guilds.filter (fun g => !fails g))
          (fun _ => false) cfgOf chanExists wk wd hour minute now st) := by
  constructor
  · have h := runGuildsCaught_filter
      (fun g s => pollTickGuild (cfgOf g) chanExists g wk dayStr hour minute now s)
      fails guilds st
    unfold check_war_poll_schedule pollBody
    unfold runGuildsCaught at h ⊢
    convert h using 2
  · have h := runGuildsCaught_filter
      (fun g s => reminderTickGuild (cfgOf g) chanExists g wk wd hour minute now s)
      fails guilds st
    unfold check_war_reminders reminderBody
    unfold runGuildsCaught at h ⊢
    convert h using 2

end Bot

namespace Bot

/-! ## Server settings (`server_settings` table, `database.py`)

Schema (src/database.py:241-256).  SQLite stores dynamically typed
values, embedded as `SqlVal`; a row is the guild id plus a total map
from column name to value (columns outside the schema simply read as
NULL and are never written, since `update_server_setting` whitelists
the column names).
-/

inductive SqlVal
  | vint (n : Int)
  | vtext (s : String)
  | vnull
  deriving DecidableEq, Repr

/-- Embeds `ALLOWED_SETTINGS` (src/database.py:22-27). -/
def ALLOWED_SETTINGS : List String :=
  ["language", "war_channel_id", "poll_day", "poll_time_hour",
   "poll_time_minute", "saturday_war_hour", "saturday_war_minute",
   "sunday_war_hour", "sunday_war_minute", "reminder_hours_before",
   "timezone"]

structure SettingsRow where
  guild : Nat
  vals : String → SqlVal

/-- The column defaults of `server_settings`
(src/database.py:241-256). -/
def defaultVals : String → SqlVal := fun c =>
  if c == "language" then .vtext "en"
  else if c == "war_channel_id" then .vnull
  else if c == "poll_day" then .vtext "Friday"
  else if c == "poll_time_hour" then .vint 15
  else if c == "poll_time_minute" then .vint 0
  else if c == "saturday_war_hour" then .vint 22
  else if c == "saturday_war_minute" then .vint 30
  else if c == "sunday_war_hour" then .vint 22
  else if c == "sunday_war_minute" then .vint 30
  else if c == "reminder_hours_before" then .vint 2
  else if c == "timezone" then .vtext "Africa/Cairo"
  else .vnull

/-- Embeds `Database.update_server_setting` (src/database.py:685-708):
reject any setting name outside `ALLOWED_SETTINGS` before touching the
database; otherwise `INSERT OR IGNORE` a default row for the guild and
`UPDATE server_settings SET {setting} = ? WHERE guild_id = ?`. -/
def update_server_setting (table : List SettingsRow) (g : Nat)
    (setting : String) (v : SqlVal) : Bool × List SettingsRow :=
  if !(ALLOWED_SETTINGS.contains setting) then (false, table)
  else
    let t1 := if table.any (·.guild == g) then table
              else table ++ [⟨g, defaultVals⟩]
    (true, t1.map fun r =>
      if r.guild == g then
        ⟨r.guild, fun c => if c == setting then v else r.vals c⟩
      else r)

/-- C10: `update_server_setting` writes only whitelisted columns: for a
setting name outside `ALLOWED_SETTINGS` it returns `False` and leaves
the table completely unchanged, and for a whitelisted name it succeeds,
leaves every other guild's row untouched, and sets exactly that column
of the guild's row to the new value. -/
theorem update_server_setting_whitelisted (table : List SettingsRow)
    (g : Nat) (setting : String) (v : SqlVal) :
    (ALLOWED_SETTINGS.contains setting = false →
      update_server_setting table g setting v = (false, table)) ∧
    ((update_server_setting table g setting v).2.filter (fun r => !(r.guild == g))
      = table.filter (fun r => !(r.guild == g))) ∧
    (ALLOWED_SETTINGS.contains setting = true →
      (update_server_setting table g setting v).1 = true ∧
      ∀ r ∈ (update_server_setting table g setting v).2,
        r.guild = g → r.vals setting = v) := by
  refine ⟨fun hno => ?_, ?_, fun hyes => ?_⟩
  · unfold update_server_setting
    rw [hno]
    rfl
  · by_cases hal : ALLOWED_SETTINGS.contains setting
    · unfold update_server_setting
      rw [hal]
      simp only [Bool.not_true, Bool.false_eq_true, if_false]
      have hguild : ∀ r : SettingsRow,
          ((if r.guild == g then
              (⟨r.guild, fun c => if c == setting then v else r.vals c⟩ : SettingsRow)
            else r).guild) = r.guild := by
        intro r
        by_cases hr : (r.guild == g) = true
        · rw [if_pos hr]
        · rw [if_neg hr]
      have hmap : ∀ (l : List SettingsRow),
          (l.map fun r => if r.guild == g then
            (⟨r.guild, fun c => if c == setting then v else r.vals c⟩ : SettingsRow)
          else r).filter (fun r => !(r.guild == g))
            = l.filter (fun r => !(r.guild == g)) := by
        intro l
        induction l with
        | nil => rfl
        | cons r rs ih =>
            rw [List.map_cons, List.filter_cons, List.filter_cons]
            have hc : (!((if r.guild == g then
                (⟨r.guild, fun c => if c == setting then v else r.vals c⟩ : SettingsRow)
              else r).guild == g)) = (!(r.guild == g)) := by
              rw [hguild r]
            rw [hc]
            by_cases hr : (r.guild == g) = true
            · have hcond : (!(r.guild == g)) = false := by rw [hr]; rfl
              rw [hcond, if_neg Bool.false_ne_true, if_neg Bool.false_ne_true]
              exact ih
            · have hr' := Bool.eq_false_iff.mpr hr
              have hcond : (!(r.guild == g)) = true := by rw [hr']; rfl
              rw [if_neg hr, if_pos hcond, if_pos hcond, ih]
      by_cases hany : table.any (·.guild == g)
      · rw [if_pos hany, hmap]
      · rw [if_neg hany, hmap, List.filter_append]
        simp
    · have hno := Bool.eq_false_iff.mpr hal
      unfold update_server_setting
      rw [hno]
      rfl
  · constructor
    · unfold update_server_setting
      rw [hyes]
      rfl
    · intro r hr hrg
      unfold update_server_setting at hr
      rw [hyes] at hr
      simp only [Bool.not_true, Bool.false_eq_true, if_false] at hr
      rw [List.mem_map] at hr
      obtain ⟨r0, _, hr0⟩ := hr
      by_cases h0 : r0.guild == g
      · rw [if_pos h0] at hr0
        rw [← hr0]
        simp
      · rw [if_neg h0] at hr0
        subst hr0
        simp only [beq_iff_eq] at h0
        exact absurd hrg h0

/-- Witness for `update_server_setting_whitelisted`: a rejected unknown
column and an accepted whitelisted column on a concrete table. -/
theorem update_server_setting_whitelisted_witness :
    (update_server_setting [] 1 "evil_column" (.vtext "x") = (false, [])) ∧
    ((update_server_setting [⟨1, defaultVals⟩] 1 "poll_day"
        (.vtext "Monday")).1 = true) := by
  constructor
  · exact (update_server_setting_whitelisted [] 1 "evil_column" (.vtext "x")).1
      (by decide)
  · exact ((update_server_setting_whitelisted [⟨1, defaultVals⟩] 1 "poll_day"
      (.vtext "Monday")).2.2 (by decide)).1

end Bot

namespace Bot

/-! ## Admin configuration commands (C9)

Three command handlers write the schedule settings:
`WarCog.setwar` (src/cogs/war.py:339-448), the standalone `setwar`
(src/bot.py:1820-1915) and `setpollschedule` (src/cogs/war.py:717-800).
All three go through `update_war_setting` → `Database.update_server_setting`
(src/utils/war_helpers.py:66-68).  Inputs that Python parses from the
user's strings are supplied as already-parsed oracles: `intParse`
models `int(value)` (`none` = `ValueError`), `hmParse` models the
`"HH:MM"` split-and-parse, `chanParse` the channel-mention parse,
`chanExists` models `guild.get_channel`, `tzValid` models
`pytz.timezone(value)` not raising.  The returned `Bool` is `false`
exactly when the handler replied with a validation error (every such
path returns before any database write). -/

/-- The day list of the `poll_day` branch of `setwar`
(src/bot.py:1866) and of the `setpollschedule` day `Choice`
(src/cogs/war.py:728-736). -/
def DAY_NAMES : List String :=
  ["Monday", "Tuesday", "Wednesday", "Thursday", "Friday", "Saturday", "Sunday"]

/-- `update_war_setting` (src/utils/war_helpers.py:66-68): forwards to
`update_server_setting` and the handlers ignore the returned flag. -/
def upd (t : List SettingsRow) (g : Nat) (k : String) (v : SqlVal) :
    List SettingsRow :=
  (update_server_setting t g k v).2

/-- Embeds `WarCog.setwar` (src/cogs/war.py:339-448).  `key` is the
slash-command `Choice` value. -/
def setwar_cog (t : List SettingsRow) (g : Nat) (key value : String)
    (intParse : Option Int) (chanParse : Option Nat)
    (chanExists : Nat → Bool) (tzValid : Bool) : List SettingsRow × Bool :=
  if key == "war_channel_id" then
    match chanParse with
    | none => (t, false)
    | some cid =>
        if chanExists cid then (upd t g "war_channel_id" (.vint cid), true)
        else (t, false)
  else if key == "saturday_war_hour" || key == "sunday_war_hour" then
    match intParse with
    | none => (t, false)
    | some h =>
        if h < 0 ∨ 23 < h then (t, false) else (upd t g key (.vint h), true)
  else if key == "saturday_war_minute" || key == "sunday_war_minute" then
    match intParse with
    | none => (t, false)
    | some m =>
        if m < 0 ∨ 59 < m then (t, false) else (upd t g key (.vint m), true)
  else if key == "reminder_hours_before" then
    match intParse with
    | none => (t, false)
    | some hrs =>
        if hrs < 0 ∨ 48 < hrs then (t, false) else (upd t g key (.vint hrs), true)
  else if key == "timezone" then
    if tzValid then (upd t g key (.vtext value), true) else (t, false)
  else (upd t g key (.vtext value), true)

/-- Embeds the standalone `setwar` (src/bot.py:1820-1915).
`valueTitled` is `value.title()` (used only by the `poll_day` branch). -/
def setwar_bot (t : List SettingsRow) (g : Nat)
    (setting valueTitled value : String) (hmParse : Option (Int × Int))
    (intParse : Option Int) (chanParse : Option Nat)
    (chanExists : Nat → Bool) (tzValid : Bool) : List SettingsRow × Bool :=
  if setting == "war_channel" then
    match chanParse with
    | none => (t, false)
    | some cid =>
        if chanExists cid then (upd t g "war_channel_id" (.vint cid), true)
        else (t, false)
  else if setting == "poll_time" || setting == "saturday_time"
      || setting == "sunday_time" then
    match hmParse with
    | none => (t, false)
    | some (h, m) =>
        if h < 0 ∨ 23 < h ∨ m < 0 ∨ 59 < m then (t, false)
        else if setting == "poll_time" then
          (upd (upd t g "poll_time_hour" (.vint h)) g "poll_time_minute"
            (.vint m), true)
        else if setting == "saturday_time" then
          (upd (upd t g "saturday_war_hour" (.vint h)) g "saturday_war_minute"
            (.vint m), true)
        else
          (upd (upd t g "sunday_war_hour" (.vint h)) g "sunday_war_minute"
            (.vint m), true)
  else if setting == "reminder_hours" then
    match intParse with
    | none => (t, false)
    | some hrs =>
        if hrs < 0 ∨ 24 < hrs then (t, false)
        else (upd t g "reminder_hours_before" (.vint hrs), true)
  else if setting == "poll_day" then
    if DAY_NAMES.contains valueTitled then
      (upd t g "poll_day" (.vtext valueTitled), true)
    else (t, false)
  else if setting == "timezone" then
    if tzValid then (upd t g "timezone" (.vtext value), true) else (t, false)
  else (upd t g setting (.vtext value), true)

/-- Embeds `setpollschedule` (src/cogs/war.py:717-800): the view-only
path when all three arguments are absent, the range validation of
`hour` and `minute` BEFORE any write, then the sequential updates. -/
def setpollschedule (t : List SettingsRow) (g : Nat)
    (dayChoice : Option String) (hourArg minuteArg : Option Int) :
    List SettingsRow × Bool :=
  if dayChoice.isNone && hourArg.isNone && minuteArg.isNone then (t, true)
  else if hourArg.any (fun h => decide (h < 0 ∨ 23 < h)) then (t, false)
  else if minuteArg.any (fun m => decide (m < 0 ∨ 59 < m)) then (t, false)
  else
    let t1 := match dayChoice with
      | some d => upd t g "poll_day" (.vtext d)
      | none => t
    let t2 := match hourArg with
      | some h => upd t1 g "poll_time_hour" (.vint h)
      | none => t1
    let t3 := match minuteArg with
      | some m => upd t2 g "poll_time_minute" (.vint m)
      | none => t2
    (t3, true)

/-- The stored value is an integer in `[lo, hi]`. -/
def intIn (v : SqlVal) (lo hi : Int) : Prop :=
  ∃ n, v = .vint n ∧ lo ≤ n ∧ n ≤ hi

/-- The schedule-invariant of a `server_settings` row (claim C9): all
time-of-day hour columns in 0–23, minute columns in 0–59, and
`poll_day` a valid day name. -/
def validRow (r : SettingsRow) : Prop :=
  intIn (r.vals "poll_time_hour") 0 23 ∧
  intIn (r.vals "poll_time_minute") 0 59 ∧
  intIn (r.vals "saturday_war_hour") 0 23 ∧
  intIn (r.vals "saturday_war_minute") 0 59 ∧
  intIn (r.vals "sunday_war_hour") 0 23 ∧
  intIn (r.vals "sunday_war_minute") 0 59 ∧
  ∃ d, r.vals "poll_day" = .vtext d ∧ d ∈ DAY_NAMES

def validTable (t : List SettingsRow) : Prop := ∀ r ∈ t, validRow r

/-- A column/value pair that cannot break `validRow`. -/
def compatKV (k : String) (v : SqlVal) : Prop :=
  (k = "poll_time_hour" → intIn v 0 23) ∧
  (k = "poll_time_minute" → intIn v 0 59) ∧
  (k = "saturday_war_hour" → intIn v 0 23) ∧
  (k = "saturday_war_minute" → intIn v 0 59) ∧
  (k = "sunday_war_hour" → intIn v 0 23) ∧
  (k = "sunday_war_minute" → intIn v 0 59) ∧
  (k = "poll_day" → ∃ d, v = .vtext d ∧ d ∈ DAY_NAMES)

lemma validRow_default (g : Nat) : validRow ⟨g, defaultVals⟩ :=
  ⟨⟨15, rfl, by norm_num, by norm_num⟩, ⟨0, rfl, le_refl 0, by norm_num⟩,
   ⟨22, rfl, by norm_num, by norm_num⟩, ⟨30, rfl, by norm_num, by norm_num⟩,
   ⟨22, rfl, by norm_num, by norm_num⟩, ⟨30, rfl, by norm_num, by norm_num⟩,
   ⟨"Friday", rfl, by decide⟩⟩

lemma validRow_set (r : SettingsRow) (k : String) (v : SqlVal)
    (hr : validRow r) (hc : compatKV k v) :
    validRow ⟨r.guild, fun c => if c == k then v else r.vals c⟩ := by
  obtain ⟨h1, h2, h3, h4, h5, h6, h7⟩ := hr
  obtain ⟨c1, c2, c3, c4, c5, c6, c7⟩ := hc
  have hpick : ∀ (fn : String) (P : SqlVal → Prop),
      (k = fn → P v) → P (r.vals fn) →
      P (if fn == k then v else r.vals fn) := by
    intro fn P hv hold
    by_cases hk : (fn == k) = true
    · rw [if_pos hk]
      exact hv (beq_iff_eq.mp hk).symm
    · rw [if_neg hk]
      exact hold
  exact ⟨hpick "poll_time_hour" (intIn · 0 23) c1 h1,
         hpick "poll_time_minute" (intIn · 0 59) c2 h2,
         hpick "saturday_war_hour" (intIn · 0 23) c3 h3,
         hpick "saturday_war_minute" (intIn · 0 59) c4 h4,
         hpick "sunday_war_hour" (intIn · 0 23) c5 h5,
         hpick "sunday_war_minute" (intIn · 0 59) c6 h6,
         hpick "poll_day" (fun w => ∃ d, w = .vtext d ∧ d ∈ DAY_NAMES) c7 h7⟩

/-- `update_server_setting` with a compatible column/value pair keeps
every row valid. -/
lemma validTable_upd (t : List SettingsRow) (g : Nat) (k : String)
    (v : SqlVal) (ht : validTable t) (hc : compatKV k v) :
    validTable (upd t g k v) := by
  intro r hr
  unfold upd update_server_setting at hr
  by_cases hal : (ALLOWED_SETTINGS.contains k) = true
  · rw [hal] at hr
    simp only [Bool.not_true, Bool.false_eq_true, if_false] at hr
    rw [List.mem_map] at hr
    obtain ⟨r0, hr0mem, hr0⟩ := hr
    have hr0valid : validRow r0 := by
      by_cases hany : (t.any (·.guild == g)) = true
      · rw [if_pos hany] at hr0mem
        exact ht r0 hr0mem
      · rw [if_neg hany] at hr0mem
        rw [List.mem_append] at hr0mem
        rcases hr0mem with h | h
        · exact ht r0 h
        · rw [List.mem_singleton] at h
          subst h
          exact validRow_default g
    by_cases h0 : (r0.guild == g) = true
    · rw [if_pos h0] at hr0
      subst hr0
      exact validRow_set r0 k v hr0valid hc
    · rw [if_neg h0] at hr0
      subst hr0
      exact hr0valid
  · have hal' := Bool.eq_false_iff.mpr hal
    rw [hal'] at hr
    simp only [Bool.not_false, if_true] at hr
    exact ht r hr

end Bot

namespace Bot

/-- The `Choice` values of `WarCog.setwar` (src/cogs/war.py:344-352);
the chat platform rejects any other value before the handler runs. -/
def COG_SETWAR_KEYS : List String :=
  ["war_channel_id", "saturday_war_hour", "saturday_war_minute",
   "sunday_war_hour", "sunday_war_minute", "reminder_hours_before", "timezone"]

/-- The `Choice` values of the standalone `setwar`
(src/bot.py:1785-1793). -/
def BOT_SETWAR_KEYS : List String :=
  ["poll_day", "poll_time", "saturday_time", "sunday_time",
   "reminder_hours", "war_channel", "timezone"]

lemma compatKV_not_listed (k : String) (v : SqlVal)
    (h1 : k ≠ "poll_time_hour") (h2 : k ≠ "poll_time_minute")
    (h3 : k ≠ "saturday_war_hour") (h4 : k ≠ "saturday_war_minute")
    (h5 : k ≠ "sunday_war_hour") (h6 : k ≠ "sunday_war_minute")
    (h7 : k ≠ "poll_day") : compatKV k v :=
  ⟨fun he => absurd he h1, fun he => absurd he h2, fun he => absurd he h3,
   fun he => absurd he h4, fun he => absurd he h5, fun he => absurd he h6,
   fun he => absurd he h7⟩

lemma compatKV_hour (k : String) (n : Int) (h0 : 0 ≤ n) (h23 : n ≤ 23)
    (hk : k = "poll_time_hour" ∨ k = "saturday_war_hour"
      ∨ k = "sunday_war_hour") : compatKV k (.vint n) := by
  refine ⟨?_, ?_, ?_, ?_, ?_, ?_, ?_⟩ <;> intro he <;>
    first
      | exact ⟨n, rfl, h0, by omega⟩
      | (subst he; rcases hk with h | h | h <;> simp at h)

lemma compatKV_minute (k : String) (n : Int) (h0 : 0 ≤ n) (h59 : n ≤ 59)
    (hk : k = "poll_time_minute" ∨ k = "saturday_war_minute"
      ∨ k = "sunday_war_minute") : compatKV k (.vint n) := by
  refine ⟨?_, ?_, ?_, ?_, ?_, ?_, ?_⟩ <;> intro he <;>
    first
      | exact ⟨n, rfl, h0, by omega⟩
      | (subst he; rcases hk with h | h | h <;> simp at h)

lemma compatKV_poll_day (d : String) (hd : d ∈ DAY_NAMES) :
    compatKV "poll_day" (.vtext d) := by
  refine ⟨?_, ?_, ?_, ?_, ?_, ?_, ?_⟩ <;> intro he <;>
    first
      | exact ⟨d, rfl, hd⟩
      | exact absurd he (by decide)

end Bot

namespace Bot

/-- C9: after every admin configuration command the stored schedule
invariant holds — hour columns stay in 0–23, minute columns in 0–59 and
`poll_day` stays a valid day name — and whenever a command replies with
a validation error it leaves the settings table unchanged; in
particular an out-of-range hour is always rejected. -/
theorem admin_config_commands_preserve_invariant (t : List SettingsRow)
    (g : Nat) (ht : validTable t) :
    (∀ (key value : String) (intParse : Option Int) (chanParse : Option Nat)
        (chanExists : Nat → Bool) (tzValid : Bool),
      key ∈ COG_SETWAR_KEYS →
      validTable (setwar_cog t g key value intParse chanParse chanExists
        tzValid).1 ∧
      ((setwar_cog t g key value intParse chanParse chanExists tzValid).2
          = false →
        (setwar_cog t g key value intParse chanParse chanExists tzValid).1
          = t)) ∧
    (∀ (setting valueTitled value : String) (hmParse : Option (Int × Int))
        (intParse : Option Int) (chanParse : Option Nat)
        (chanExists : Nat → Bool) (tzValid : Bool),
      setting ∈ BOT_SETWAR_KEYS →
      validTable (setwar_bot t g setting valueTitled value hmParse intParse
        chanParse chanExists tzValid).1 ∧
      ((setwar_bot t g setting valueTitled value hmParse intParse chanParse
          chanExists tzValid).2 = false →
        (setwar_bot t g setting valueTitled value hmParse intParse chanParse
          chanExists tzValid).1 = t)) ∧
    (∀ (dayChoice : Option String) (hourArg minuteArg : Option Int),
      (∀ d, dayChoice = some d → d ∈ DAY_NAMES) →
      validTable (setpollschedule t g dayChoice hourArg minuteArg).1 ∧
      ((setpollschedule t g dayChoice hourArg minuteArg).2 = false →
        (setpollschedule t g dayChoice hourArg minuteArg).1 = t)) ∧
    (∀ h : Int, 23 < h →
      (setpollschedule t g none (some h) none).2 = false ∧
      (setpollschedule t g none (some h) none).1 = t) ∧
    (∀ h : Int, 23 < h →
      (setwar_cog t g "saturday_war_hour" "" (some h) none (fun _ => false)
        false).2 = false ∧
      (setwar_cog t g "saturday_war_hour" "" (some h) none (fun _ => false)
        false).1 = t) := by
  have hup := fun (tt : List SettingsRow) (k : String) (v : SqlVal)
    (htt : validTable tt) (hc : compatKV k v) => validTable_upd tt g k v htt hc
  refine ⟨?_, ?_, ?_, ?_, ?_⟩
  · -- WarCog.setwar
    intro key value intParse chanParse chanExists tzValid hkey
    simp only [COG_SETWAR_KEYS, List.mem_cons, List.not_mem_nil, or_false] at hkey
    rcases hkey with rfl | rfl | rfl | rfl | rfl | rfl | rfl
    · -- war_channel_id
      cases chanParse with
      | none => exact ⟨ht, fun _ => rfl⟩
      | some cid =>
          by_cases hch : chanExists cid = true
          · have hres : setwar_cog t g "war_channel_id" value intParse
                (some cid) chanExists tzValid
                = (upd t g "war_channel_id" (.vint cid), true) := by
              simp [setwar_cog, hch]
            rw [hres]
            exact ⟨hup t _ _ ht (compatKV_not_listed _ _ (by decide) (by decide)
              (by decide) (by decide) (by decide) (by decide) (by decide)),
              fun hf => Bool.noConfusion hf⟩
          · have hch' := Bool.eq_false_iff.mpr hch
            have hres : setwar_cog t g "war_channel_id" value intParse
                (some cid) chanExists tzValid = (t, false) := by
              simp [setwar_cog, hch']
            rw [hres]
            exact ⟨ht, fun _ => rfl⟩
    · -- saturday_war_hour
      cases intParse with
      | none => exact ⟨ht, fun _ => rfl⟩
      | some h =>
          by_cases hr : h < 0 ∨ 23 < h
          · have hres : setwar_cog t g "saturday_war_hour" value (some h)
                chanParse chanExists tzValid = (t, false) := by
              simp [setwar_cog, hr]
            rw [hres]
            exact ⟨ht, fun _ => rfl⟩
          · have hres : setwar_cog t g "saturday_war_hour" value (some h)
                chanParse chanExists tzValid
                = (upd t g "saturday_war_hour" (.vint h), true) := by
              simp [setwar_cog, hr]
            rw [hres]
            exact ⟨hup t _ _ ht (compatKV_hour _ h (by omega) (by omega)
              (Or.inr (Or.inl rfl))), fun hf => Bool.noConfusion hf⟩
    · -- saturday_war_minute
      cases intParse with
      | none => exact ⟨ht, fun _ => rfl⟩
      | some m =>
          by_cases hr : m < 0 ∨ 59 < m
          · have hres : setwar_cog t g "saturday_war_minute" value (some m)
                chanParse chanExists tzValid = (t, false) := by
              simp [setwar_cog, hr]
            rw [hres]
            exact ⟨ht, fun _ => rfl⟩
          · have hres : setwar_cog t g "saturday_war_minute" value (some m)
                chanParse chanExists tzValid
                = (upd t g "saturday_war_minute" (.vint m), true) := by
              simp [setwar_cog, hr]
            rw [hres]
            exact ⟨hup t _ _ ht (compatKV_minute _ m (by omega) (by omega)
              (Or.inr (Or.inl rfl))), fun hf => Bool.noConfusion hf⟩
    · -- sunday_war_hour
      cases intParse with
      | none => exact ⟨ht, fun _ => rfl⟩
      | some h =>
          by_cases hr : h < 0 ∨ 23 < h
          · have hres : setwar_cog t g "sunday_war_hour" value (some h)
                chanParse chanExists tzValid = (t, false) := by
              simp [setwar_cog, hr]
            rw [hres]
            exact ⟨ht, fun _ => rfl⟩
          · have hres : setwar_cog t g "sunday_war_hour" value (some h)
                chanParse chanExists tzValid
                = (upd t g "sunday_war_hour" (.vint h), true) := by
              simp [setwar_cog, hr]
            rw [hres]
            exact ⟨hup t _ _ ht (compatKV_hour _ h (by omega) (by omega)
              (Or.inr (Or.inr rfl))), fun hf => Bool.noConfusion hf⟩
    · -- sunday_war_minute
      cases intParse with
      | none => exact ⟨ht, fun _ => rfl⟩
      | some m =>
          by_cases hr : m < 0 ∨ 59 < m
          · have hres : setwar_cog t g "sunday_war_minute" value (some m)
                chanParse chanExists tzValid = (t, false) := by
              simp [setwar_cog, hr]
            rw [hres]
            exact ⟨ht, fun _ => rfl⟩
          · have hres : setwar_cog t g "sunday_war_minute" value (some m)
                chanParse chanExists tzValid
                = (upd t g "sunday_war_minute" (.vint m), true) := by
              simp [setwar_cog, hr]
            rw [hres]
            exact ⟨hup t _ _ ht (compatKV_minute _ m (by omega) (by omega)
              (Or.inr (Or.inr rfl))), fun hf => Bool.noConfusion hf⟩
    · -- reminder_hours_before
      cases intParse with
      | none => exact ⟨ht, fun _ => rfl⟩
      | some hrs =>
          by_cases hr : hrs < 0 ∨ 48 < hrs
          · have hres : setwar_cog t g "reminder_hours_before" value (some hrs)
                chanParse chanExists tzValid = (t, false) := by
              simp [setwar_cog, hr]
            rw [hres]
            exact ⟨ht, fun _ => rfl⟩
          · have hres : setwar_cog t g "reminder_hours_before" value (some hrs)
                chanParse chanExists tzValid
                = (upd t g "reminder_hours_before" (.vint hrs), true) := by
              simp [setwar_cog, hr]
            rw [hres]
            exact ⟨hup t _ _ ht (compatKV_not_listed _ _ (by decide) (by decide)
              (by decide) (by decide) (by decide) (by decide) (by decide)),
              fun hf => Bool.noConfusion hf⟩
    · -- timezone
      by_cases htz : tzValid = true
      · have hres : setwar_cog t g "timezone" value intParse chanParse
            chanExists tzValid = (upd t g "timezone" (.vtext value), true) := by
          simp [setwar_cog, htz]
        rw [hres]
        exact ⟨hup t _ _ ht (compatKV_not_listed _ _ (by decide) (by decide)
          (by decide) (by decide) (by decide) (by decide) (by decide)),
          fun hf => Bool.noConfusion hf⟩
      · have htz' := Bool.eq_false_iff.mpr htz
        have hres : setwar_cog t g "timezone" value intParse chanParse
            chanExists tzValid = (t, false) := by
          simp [setwar_cog, htz']
        rw [hres]
        exact ⟨ht, fun _ => rfl⟩
  · -- standalone setwar
    intro setting valueTitled value hmParse intParse chanParse chanExists
      tzValid hkey
    simp only [BOT_SETWAR_KEYS, List.mem_cons, List.not_mem_nil, or_false] at hkey
    rcases hkey with rfl | rfl | rfl | rfl | rfl | rfl | rfl
    · -- poll_day
      by_cases hd : DAY_NAMES.contains valueTitled = true
      · have hdm : valueTitled ∈ DAY_NAMES := by simpa using hd
        have hres : setwar_bot t g "poll_day" valueTitled value hmParse
            intParse chanParse chanExists tzValid
            = (upd t g "poll_day" (.vtext valueTitled), true) := by
          simp [setwar_bot, hdm]
        rw [hres]
        exact ⟨hup t _ _ ht (compatKV_poll_day valueTitled hdm),
          fun hf => Bool.noConfusion hf⟩
      · have hdm' : valueTitled ∉ DAY_NAMES := by
          simpa using Bool.eq_false_iff.mpr hd
        have hres : setwar_bot t g "poll_day" valueTitled value hmParse
            intParse chanParse chanExists tzValid = (t, false) := by
          simp [setwar_bot, hdm']
        rw [hres]
        exact ⟨ht, fun _ => rfl⟩
    · -- poll_time
      cases hmParse with
      | none => exact ⟨ht, fun _ => rfl⟩
      | some hm =>
          obtain ⟨h, m⟩ := hm
          by_cases hr : h < 0 ∨ 23 < h ∨ m < 0 ∨ 59 < m
          · have hres : setwar_bot t g "poll_time" valueTitled value
                (some (h, m)) intParse chanParse chanExists tzValid
                = (t, false) := by
              simp [setwar_bot, hr]
            rw [hres]
            exact ⟨ht, fun _ => rfl⟩
          · have hres : setwar_bot t g "poll_time" valueTitled value
                (some (h, m)) intParse chanParse chanExists tzValid
                = (upd (upd t g "poll_time_hour" (.vint h)) g
                    "poll_time_minute" (.vint m), true) := by
              simp [setwar_bot, hr]
            rw [hres]
            exact ⟨hup _ _ _ (hup t _ _ ht (compatKV_hour _ h (by omega)
                (by omega) (Or.inl rfl)))
                (compatKV_minute _ m (by omega) (by omega) (Or.inl rfl)),
              fun hf => Bool.noConfusion hf⟩
    · -- saturday_time
      cases hmParse with
      | none => exact ⟨ht, fun _ => rfl⟩
      | some hm =>
          obtain ⟨h, m⟩ := hm
          by_cases hr : h < 0 ∨ 23 < h ∨ m < 0 ∨ 59 < m
          · have hres : setwar_bot t g "saturday_time" valueTitled value
                (some (h, m)) intParse chanParse chanExists tzValid
                = (t, false) := by
              simp [setwar_bot, hr]
            rw [hres]
            exact ⟨ht, fun _ => rfl⟩
          · have hres : setwar_bot t g "saturday_time" valueTitled value
                (some (h, m)) intParse chanParse chanExists tzValid
                = (upd (upd t g "saturday_war_hour" (.vint h)) g
                    "saturday_war_minute" (.vint m), true) := by
              simp [setwar_bot, hr]
            rw [hres]
            exact ⟨hup _ _ _ (hup t _ _ ht (compatKV_hour _ h (by omega)
                (by omega) (Or.inr (Or.inl rfl))))
                (compatKV_minute _ m (by omega) (by omega)
                  (Or.inr (Or.inl rfl))),
              fun hf => Bool.noConfusion hf⟩
    · -- sunday_time
      cases hmParse with
      | none => exact ⟨ht, fun _ => rfl⟩
      | some hm =>
          obtain ⟨h, m⟩ := hm
          by_cases hr : h < 0 ∨ 23 < h ∨ m < 0 ∨ 59 < m
          · have hres : setwar_bot t g "sunday_time" valueTitled value
                (some (h, m)) intParse chanParse chanExists tzValid
                = (t, false) := by
              simp [setwar_bot, hr]
            rw [hres]
            exact ⟨ht, fun _ => rfl⟩
          · have hres : setwar_bot t g "sunday_time" valueTitled value
                (some (h, m)) intParse chanParse chanExists tzValid
                = (upd (upd t g "sunday_war_hour" (.vint h)) g
                    "sunday_war_minute" (.vint m), true) := by
              simp [setwar_bot, hr]
            rw [hres]
            exact ⟨hup _ _ _ (hup t _ _ ht (compatKV_hour _ h (by omega)
                (by omega) (Or.inr (Or.inr rfl))))
                (compatKV_minute _ m (by omega) (by omega)
                  (Or.inr (Or.inr rfl))),
              fun hf => Bool.noConfusion hf⟩
    · -- reminder_hours
      cases intParse with
      | none => exact ⟨ht, fun _ => rfl⟩
      | some hrs =>
          by_cases hr : hrs < 0 ∨ 24 < hrs
          · have hres : setwar_bot t g "reminder_hours" valueTitled value
                hmParse (some hrs) chanParse chanExists tzValid
                = (t, false) := by
              simp [setwar_bot, hr]
            rw [hres]
            exact ⟨ht, fun _ => rfl⟩
          · have hres : setwar_bot t g "reminder_hours" valueTitled value
                hmParse (some hrs) chanParse chanExists tzValid
                = (upd t g "reminder_hours_before" (.vint hrs), true) := by
              simp [setwar_bot, hr]
            rw [hres]
            exact ⟨hup t _ _ ht (compatKV_not_listed _ _ (by decide) (by decide)
              (by decide) (by decide) (by decide) (by decide) (by decide)),
              fun hf => Bool.noConfusion hf⟩
    · -- war_channel
      cases chanParse with
      | none => exact ⟨ht, fun _ => rfl⟩
      | some cid =>
          by_cases hch : chanExists cid = true
          · have hres : setwar_bot t g "war_channel" valueTitled value hmParse
                intParse (some cid) chanExists tzValid
                = (upd t g "war_channel_id" (.vint cid), true) := by
              simp [setwar_bot, hch]
            rw [hres]
            exact ⟨hup t _ _ ht (compatKV_not_listed _ _ (by decide) (by decide)
              (by decide) (by decide) (by decide) (by decide) (by decide)),
              fun hf => Bool.noConfusion hf⟩
          · have hch' := Bool.eq_false_iff.mpr hch
            have hres : setwar_bot t g "war_channel" valueTitled value hmParse
                intParse (some cid) chanExists tzValid = (t, false) := by
              simp [setwar_bot, hch']
            rw [hres]
            exact ⟨ht, fun _ => rfl⟩
    · -- timezone
      by_cases htz : tzValid = true
      · have hres : setwar_bot t g "timezone" valueTitled value hmParse
            intParse chanParse chanExists tzValid
            = (upd t g "timezone" (.vtext value), true) := by
          simp [setwar_bot, htz]
        rw [hres]
        exact ⟨hup t _ _ ht (compatKV_not_listed _ _ (by decide) (by decide)
          (by decide) (by decide) (by decide) (by decide) (by decide)),
          fun hf => Bool.noConfusion hf⟩
      · have htz' := Bool.eq_false_iff.mpr htz
        have hres : setwar_bot t g "timezone" valueTitled value hmParse
            intParse chanParse chanExists tzValid = (t, false) := by
          simp [setwar_bot, htz']
        rw [hres]
        exact ⟨ht, fun _ => rfl⟩
  · -- setpollschedule
    intro dayChoice hourArg minuteArg hday
    cases dayChoice with
    | none =>
        cases hourArg with
        | none =>
            cases minuteArg with
            | none => exact ⟨ht, fun _ => rfl⟩
            | some m =>
                by_cases hm : m < 0 ∨ 59 < m
                · have hres : setpollschedule t g none none (some m)
                      = (t, false) := by simp [setpollschedule, hm]
                  rw [hres]
                  exact ⟨ht, fun _ => rfl⟩
                · have hres : setpollschedule t g none none (some m)
                      = (upd t g "poll_time_minute" (.vint m), true) := by
                    simp [setpollschedule, hm]
                  rw [hres]
                  exact ⟨hup t _ _ ht (compatKV_minute _ m (by omega) (by omega)
                    (Or.inl rfl)), fun hf => Bool.noConfusion hf⟩
        | some h =>
            by_cases hh : h < 0 ∨ 23 < h
            · have hres : setpollschedule t g none (some h) minuteArg
                  = (t, false) := by
                cases minuteArg <;> simp [setpollschedule, hh]
              rw [hres]
              exact ⟨ht, fun _ => rfl⟩
            · cases minuteArg with
              | none =>
                  have hres : setpollschedule t g none (some h) none
                      = (upd t g "poll_time_hour" (.vint h), true) := by
                    simp [setpollschedule, hh]
                  rw [hres]
                  exact ⟨hup t _ _ ht (compatKV_hour _ h (by omega) (by omega)
                    (Or.inl rfl)), fun hf => Bool.noConfusion hf⟩
              | some m =>
                  by_cases hm : m < 0 ∨ 59 < m
                  · have hres : setpollschedule t g none (some h) (some m)
                        = (t, false) := by simp [setpollschedule, hh, hm]
                    rw [hres]
                    exact ⟨ht, fun _ => rfl⟩
                  · have hres : setpollschedule t g none (some h) (some m)
                        = (upd (upd t g "poll_time_hour" (.vint h)) g
                            "poll_time_minute" (.vint m), true) := by
                      simp [setpollschedule, hh, hm]
                    rw [hres]
                    exact ⟨hup _ _ _ (hup t _ _ ht (compatKV_hour _ h (by omega)
                        (by omega) (Or.inl rfl)))
                        (compatKV_minute _ m (by omega) (by omega) (Or.inl rfl)),
                      fun hf => Bool.noConfusion hf⟩
    | some d =>
        have hdm : d ∈ DAY_NAMES := hday d rfl
        have hvd : validTable (upd t g "poll_day" (.vtext d)) :=
          hup t _ _ ht (compatKV_poll_day d hdm)
        cases hourArg with
        | none =>
            cases minuteArg with
            | none =>
                have hres : setpollschedule t g (some d) none none
                    = (upd t g "poll_day" (.vtext d), true) := by
                  simp [setpollschedule]
                rw [hres]
                exact ⟨hvd, fun hf => Bool.noConfusion hf⟩
            | some m =>
                by_cases hm : m < 0 ∨ 59 < m
                · have hres : setpollschedule t g (some d) none (some m)
                      = (t, false) := by simp [setpollschedule, hm]
                  rw [hres]
                  exact ⟨ht, fun _ => rfl⟩
                · have hres : setpollschedule t g (some d) none (some m)
                      = (upd (upd t g "poll_day" (.vtext d)) g
                          "poll_time_minute" (.vint m), true) := by
                    simp [setpollschedule, hm]
                  rw [hres]
                  exact ⟨hup _ _ _ hvd (compatKV_minute _ m (by omega)
                    (by omega) (Or.inl rfl)), fun hf => Bool.noConfusion hf⟩
        | some h =>
            by_cases hh : h < 0 ∨ 23 < h
            · have hres : setpollschedule t g (some d) (some h) minuteArg
                  = (t, false) := by
                cases minuteArg <;> simp [setpollschedule, hh]
              rw [hres]
              exact ⟨ht, fun _ => rfl⟩
            · have hvdh : validTable (upd (upd t g "poll_day" (.vtext d)) g
                  "poll_time_hour" (.vint h)) :=
                hup _ _ _ hvd (compatKV_hour _ h (by omega) (by omega)
                  (Or.inl rfl))
              cases minuteArg with
              | none =>
                  have hres : setpollschedule t g (some d) (some h) none
                      = (upd (upd t g "poll_day" (.vtext d)) g
                          "poll_time_hour" (.vint h), true) := by
                    simp [setpollschedule, hh]
                  rw [hres]
                  exact ⟨hvdh, fun hf => Bool.noConfusion hf⟩
              | some m =>
                  by_cases hm : m < 0 ∨ 59 < m
                  · have hres : setpollschedule t g (some d) (some h) (some m)
                        = (t, false) := by simp [setpollschedule, hh, hm]
                    rw [hres]
                    exact ⟨ht, fun _ => rfl⟩
                  · have hres : setpollschedule t g (some d) (some h) (some m)
                        = (upd (upd (upd t g "poll_day" (.vtext d)) g
                            "poll_time_hour" (.vint h)) g
                            "poll_time_minute" (.vint m), true) := by
                      simp [setpollschedule, hh, hm]
                    rw [hres]
                    exact ⟨hup _ _ _ hvdh (compatKV_minute _ m (by omega)
                      (by omega) (Or.inl rfl)), fun hf => Bool.noConfusion hf⟩
  · -- out-of-range hour to setpollschedule is rejected
    intro h h23
    have hh : h < 0 ∨ 23 < h := Or.inr h23
    have hres : setpollschedule t g none (some h) none = (t, false) := by
      simp [setpollschedule, hh]
    rw [hres]
    exact ⟨rfl, rfl⟩
  · -- out-of-range hour to WarCog.setwar is rejected
    intro h h23
    have hh : h < 0 ∨ 23 < h := Or.inr h23
    have hres : setwar_cog t g "saturday_war_hour" "" (some h) none
        (fun _ => false) false = (t, false) := by
      simp [setwar_cog, hh]
    rw [hres]
    exact ⟨rfl, rfl⟩

end Bot

namespace Bot

/-- Witness for `admin_config_commands_preserve_invariant`: a valid
hour update keeps the table valid, and the out-of-range hour 99 is
rejected. -/
theorem admin_config_commands_preserve_invariant_witness :
    validTable (setwar_cog [] 1 "saturday_war_hour" "7" (some 7) none
      (fun _ => false) false).1 ∧
    (setpollschedule [] 1 none (some 99) none).2 = false :=
  ⟨((admin_config_commands_preserve_invariant [] 1
      (by intro r hr; cases hr)).1
      "saturday_war_hour" "7" (some 7) none (fun _ => false) false
      (by decide)).1,
   ((admin_config_commands_preserve_invariant [] 1
      (by intro r hr; cases hr)).2.2.2.1 99 (by decide)).1⟩

end Bot
